import Mathlib

/-!
Verification of the netvip repository: a shallow embedding of its netlink
address codec, acknowledgement loop, ARP/Ethernet codec and GARP watch
loops, together with proofs about the claims of its specification.

Machine integers are modelled as `Nat`; every place where the Go code
casts to a fixed-width type, the embedding stores the value through a
little-endian byte encoder that truncates exactly like the cast does.
Byte buffers are `List Nat` with every element a byte value.
-/

namespace Netvip

/-! Constants taken from the Go `syscall` package for linux/amd64
(the build targets of the repository are all little-endian). -/

def SizeofNlMsghdr : Nat := 16
def SizeofIfAddrmsg : Nat := 8
def SizeofRtAttr : Nat := 4
def NLA_ALIGNTO : Nat := 4
def AF_INET : Nat := 2
def AF_INET6 : Nat := 10
def RTM_NEWADDR : Nat := 20
def RTM_DELADDR : Nat := 21
def NLM_F_REQUEST : Nat := 1
def NLM_F_ACK : Nat := 4
def NLM_F_EXCL : Nat := 512
def NLM_F_CREATE : Nat := 1024
def IFA_ADDRESS : Nat := 1
def IFA_LOCAL : Nat := 2
def IFA_LABEL : Nat := 3
def NLMSG_HDRLEN : Nat := 16
def NLMSG_ERROR : Nat := 2
def NLMSG_DONE : Nat := 3
def ETH_P_ARP : Nat := 2054
def EAGAIN : Nat := 11
def EINTR : Nat := 4

/-! Byte-buffer primitives.  `writeBytesAt` writes a list of byte values
into a buffer starting at a given offset, one `List.set` per byte, which
is exactly what the Go pointer-cast field writes do on a little-endian
machine.  (`List.set` ignores out-of-range writes; every write performed
by the embedded code below stays inside the buffer.) -/

def writeBytesAt (buf : List Nat) (off : Nat) : List Nat → List Nat
  | [] => buf
  | d :: ds => writeBytesAt (buf.set off d) (off + 1) ds

/-- Little-endian bytes of a `uint8` store: the cast truncates to 8 bits. -/
def putU8 (v : Nat) : List Nat := [v % 256]

/-- Little-endian bytes of a `uint16` store: the cast truncates to 16 bits. -/
def putU16LE (v : Nat) : List Nat := [v % 256, v / 256 % 256]

/-- Little-endian bytes of a `uint32` store: the cast truncates to 32 bits. -/
def putU32LE (v : Nat) : List Nat :=
  [v % 256, v / 256 % 256, v / 65536 % 256, v / 16777216 % 256]

/-- Little-endian read of two bytes. -/
def readU16LE (buf : List Nat) (off : Nat) : Nat :=
  buf.getD off 0 + 256 * buf.getD (off + 1) 0

/-- Little-endian read of four bytes. -/
def readU32LE (buf : List Nat) (off : Nat) : Nat :=
  buf.getD off 0 + 256 * buf.getD (off + 1) 0 + 65536 * buf.getD (off + 2) 0 +
    16777216 * buf.getD (off + 3) 0

/-! The byte alignment utility.

Go source: `func align(size, tick int) int { return (size + tick - 1) &^ (tick - 1) }`.

Go `int` is a 64-bit two's-complement integer on every build target of the
repository, and `a &^ b` is bitwise AND NOT.  For `0 ≤ b` the 64-bit
bit pattern of `^b` is `2^64 - 1 - b`, so for operands in `[0, 2^63)` the
Go expression equals the `Nat` computation below (the claims about `align`
only concern non-negative sizes and boundaries `tick ≥ 1`). -/

def align (size tick : Nat) : Nat :=
  Nat.land (size + tick - 1) (2 ^ 64 - 1 - (tick - 1))

/-- Go source: `func alignNlAttr(size int) int { return align(size, syscall.NLA_ALIGNTO) }`. -/
def alignNlAttr (size : Nat) : Nat := align size NLA_ALIGNTO

/-! The netlink message codec, translated from `buildAddOrDelAddrReq`,
`serializeNlMsghdr`, `serializeIfAddrmsg` and `serializeRtAttr`. -/

/-- Serialization of `syscall.NlMsghdr`.  The Go function writes the five
header fields at offsets 0, 4, 6, 8, 12 from `b` and then returns
`b[syscall.SizeofIfAddrmsg:]` — it advances by 8 bytes, not by the 16
bytes it has just written.  The returned offset reproduces that line. -/
def serializeNlMsghdr (buf : List Nat) (off : Nat) (len typ flags seq pid : Nat) :
    List Nat × Nat :=
  let b1 := writeBytesAt buf off (putU32LE len)
  let b2 := writeBytesAt b1 (off + 4) (putU16LE typ)
  let b3 := writeBytesAt b2 (off + 6) (putU16LE flags)
  let b4 := writeBytesAt b3 (off + 8) (putU32LE seq)
  let b5 := writeBytesAt b4 (off + 12) (putU32LE pid)
  (b5, off + SizeofIfAddrmsg)

/-- Serialization of `syscall.IfAddrmsg`: family, prefixlen, flags, scope
as single bytes at offsets 0..3, interface index as `uint32` at offset 4;
returns `b[syscall.SizeofIfAddrmsg:]`. -/
def serializeIfAddrmsg (buf : List Nat) (off : Nat)
    (family prefixlen flags scope index : Nat) : List Nat × Nat :=
  let b1 := writeBytesAt buf off (putU8 family)
  let b2 := writeBytesAt b1 (off + 1) (putU8 prefixlen)
  let b3 := writeBytesAt b2 (off + 2) (putU8 flags)
  let b4 := writeBytesAt b3 (off + 3) (putU8 scope)
  let b5 := writeBytesAt b4 (off + 4) (putU32LE index)
  (b5, off + SizeofIfAddrmsg)

/-- Sequential copy of the variadic `data` chunks, mirroring the loop
`for _, d := range data { copy(p, d); p = p[len(d):] }`. -/
def writeChunks (buf : List Nat) (off : Nat) : List (List Nat) → List Nat
  | [] => buf
  | d :: ds => writeChunks (writeBytesAt buf off d) (off + d.length) ds

/-- Serialization of `syscall.RtAttr` plus payload chunks: `uint16` length
at offset 0, `uint16` type at offset 2, payload from offset 4; returns
`b[attr.Len:]` (the length value is a `uint16`, hence the truncation in
the returned offset). -/
def serializeRtAttr (buf : List Nat) (off : Nat) (len typ : Nat)
    (data : List (List Nat)) : List Nat × Nat :=
  let b1 := writeBytesAt buf off (putU16LE len)
  let b2 := writeBytesAt b1 (off + 2) (putU16LE typ)
  let b3 := writeChunks b2 (off + 4) data
  (b3, off + len % 65536)

/-- An IP prefix (CIDR): the address bytes (4 for IPv4, 16 for IPv6, which
is what `netip.Addr.BitLen() / 8` and `AsSlice` yield) and the prefix
length in bits. -/
structure Cidr where
  addrBytes : List Nat
  bits : Nat
deriving DecidableEq

/-- Translation of `buildAddOrDelAddrReq(ifIndex, proto, p, label, flags)`.
The label is the byte list of the Go string.  Every field store goes
through the `putU*` encoders, which truncate exactly like the Go casts
`uint32(reqLen)`, `uint8(prefixlen)`, `uint32(ifIndex)`,
`uint16(...Len)` do. -/
def buildAddOrDelAddrReq (ifIndex proto : Nat) (p : Cidr) (label : List Nat)
    (flags : Nat) : List Nat :=
  let addrByteLen := p.addrBytes.length
  let isIPv4 := p.addrBytes.length = 4
  let reqLen := SizeofNlMsghdr + SizeofIfAddrmsg + 2 * (SizeofRtAttr + addrByteLen) +
    (if label ≠ [] then SizeofRtAttr + alignNlAttr (label.length + 1) else 0)
  let req := List.replicate reqLen 0
  let st1 := serializeNlMsghdr req 0 reqLen proto (Nat.lor NLM_F_REQUEST flags) 1 0
  let family := if isIPv4 then AF_INET else AF_INET6
  let st2 := serializeIfAddrmsg st1.1 st1.2 family p.bits 0 0 ifIndex
  let st3 := serializeRtAttr st2.1 st2.2 (SizeofRtAttr + addrByteLen) IFA_LOCAL
    [p.addrBytes]
  let st4 := serializeRtAttr st3.1 st3.2 (SizeofRtAttr + addrByteLen) IFA_ADDRESS
    [p.addrBytes]
  if label ≠ [] then
    (serializeRtAttr st4.1 st4.2 (SizeofRtAttr + alignNlAttr (label.length + 1))
      IFA_LABEL [label, [0]]).1
  else st4.1

/-! The netlink acknowledgement loop of `addOrDelAddr`.

`syscall.Recvfrom` and `syscall.ParseNetlinkMessage` live outside the
repository; a received datagram is therefore modelled by its outcome: a
receive error, a datagram shorter than `NLMSG_HDRLEN`, a datagram that
fails netlink parsing, or the parsed list of top-level netlink messages.
The classification logic itself (lines 41-67 of the netlink source file)
is translated verbatim. -/

/-- A parsed top-level netlink message: header type and payload bytes. -/
structure NlMsg where
  typ : Nat
  data : List Nat
deriving DecidableEq

/-- Outcome of one `Recvfrom` + `ParseNetlinkMessage` round. -/
inductive Recv where
  | recvFailed (e : Nat)
  | short
  | unparsable
  | msgs (ms : List NlMsg)
deriving DecidableEq

/-- Result of `addOrDelAddr` after the request was sent. -/
inductive AckResult where
  | ok
  | recvErr (e : Nat)
  | invalidShort
  | parseFail
  | nlErr (code : Int)
  | pending
deriving DecidableEq

/-- The native-endian `int32` read `*(*int32)(unsafe.Pointer(&msg.Data[:4][0]))`
on a little-endian machine: little-endian two's complement of the first
four bytes.  (The Go code would panic on fewer than four bytes; the
claims only exercise well-formed four-byte error payloads.) -/
def decodeInt32LE (b : List Nat) : Int :=
  let u : Nat := b.getD 0 0 + 256 * b.getD 1 0 + 65536 * b.getD 2 0 +
    16777216 * b.getD 3 0
  if u < 2147483648 then (u : Int) else (u : Int) - 4294967296

/-- The inner `for _, msg := range msgs` loop: `NLMSG_DONE` breaks out with
success, `NLMSG_ERROR` with code 0 breaks out with success, a nonzero code
returns `syscall.Errno(-errCode)`, anything else is skipped.  `none` means
the datagram was exhausted without a verdict. -/
def processMsgs : List NlMsg → Option AckResult
  | [] => none
  | m :: rest =>
    if m.typ = NLMSG_DONE then some .ok
    else if m.typ = NLMSG_ERROR then
      let c := decodeInt32LE m.data
      if c = 0 then some .ok else some (.nlErr (-c))
    else processMsgs rest

/-- The outer receive loop of `addOrDelAddr`, over the stream of receive
outcomes.  An exhausted stream means the Go loop would still be blocked in
`Recvfrom` (`pending`). -/
def addOrDelAddrLoop : List Recv → AckResult
  | [] => .pending
  | .recvFailed e :: _ => .recvErr e
  | .short :: _ => .invalidShort
  | .unparsable :: _ => .parseFail
  | .msgs ms :: rest =>
    match processMsgs ms with
    | some r => r
    | none => addOrDelAddrLoop rest

/-! The Ethernet/ARP codec.

`ethernet.Frame.UnmarshalBinary` and `arp.Packet.UnmarshalBinary` are
external library collaborators.  Modelled from the spec: `ParseFrame`
fails with a length error when fewer than 14 bytes (6+6+2) are present,
otherwise destination MAC, source MAC, big-endian ethertype and payload;
`ParseARP` reads 2-byte hardware type, 2-byte protocol type, 1-byte
hardware length, 1-byte protocol length, 2-byte operation and the four
address fields, failing when too short.  `ParseARPPacket` and
`IsGARPPacket` themselves are translated from the repository's GARP
source file. -/

inductive ParseErr where
  | frameTooShort
  | invalidARPPacket
  | arpTooShort
deriving DecidableEq

structure EthFrame where
  destination : List Nat
  source : List Nat
  etherType : Nat
  payload : List Nat
deriving DecidableEq

structure ARPPacket where
  operation : Nat
  senderHardwareAddr : List Nat
  senderIP : List Nat
  targetHardwareAddr : List Nat
  targetIP : List Nat
deriving DecidableEq

def OperationRequest : Nat := 1

def macAddrBroadcast : List Nat := [255, 255, 255, 255, 255, 255]

/-- Modelled from the spec: the external Ethernet frame unmarshaller. -/
def unmarshalFrame (buf : List Nat) : Except ParseErr EthFrame :=
  if buf.length < 14 then .error .frameTooShort
  else .ok { destination := buf.take 6
             source := (buf.drop 6).take 6
             etherType := 256 * buf.getD 12 0 + buf.getD 13 0
             payload := buf.drop 14 }

/-- Modelled from the spec: the external ARP packet unmarshaller. -/
def unmarshalARP (buf : List Nat) : Except ParseErr ARPPacket :=
  if buf.length < 8 then .error .arpTooShort
  else
    let hlen := buf.getD 4 0
    let plen := buf.getD 5 0
    if buf.length < 8 + 2 * hlen + 2 * plen then .error .arpTooShort
    else .ok { operation := 256 * buf.getD 6 0 + buf.getD 7 0
               senderHardwareAddr := (buf.drop 8).take hlen
               senderIP := (buf.drop (8 + hlen)).take plen
               targetHardwareAddr := (buf.drop (8 + hlen + plen)).take hlen
               targetIP := (buf.drop (8 + 2 * hlen + plen)).take plen }

/-- Translation of `ParseARPPacket` from the GARP source file: unmarshal
the Ethernet frame; reject a non-ARP ethertype with the dedicated
`errInvalidARPPacket` value; unmarshal the ARP payload. -/
def ParseARPPacket (buf : List Nat) : Except ParseErr (ARPPacket × EthFrame) :=
  match unmarshalFrame buf with
  | .error e => .error e
  | .ok f =>
    if f.etherType ≠ ETH_P_ARP then .error .invalidARPPacket
    else
      match unmarshalARP f.payload with
      | .error e => .error e
      | .ok p => .ok (p, f)

/-- Translation of `IsGARPPacket(p, vip)`: request operation, sender and
target protocol addresses both equal to the watched address, target
hardware address equal to the broadcast address.  (`netip.Addr.Compare`
returns 0 exactly on equal addresses.) -/
def IsGARPPacket (p : ARPPacket) (vip : List Nat) : Bool :=
  p.operation == OperationRequest &&
    p.senderIP == vip &&
    p.targetHardwareAddr == macAddrBroadcast &&
    p.targetIP == vip

/-- Modelled from the external ARP library constructor
`arp.NewPacket(op, srcHW, srcIP, dstHW, dstIP)`: it validates that the two
hardware addresses have equal nonzero length and that the protocol
addresses are 4-byte IPv4 addresses, and stores the five arguments in the
corresponding packet fields. -/
def newPacket (op : Nat) (srcHW srcIP dstHW dstIP : List Nat) : Option ARPPacket :=
  if srcHW.length = dstHW.length ∧ 0 < srcHW.length ∧
      srcIP.length = 4 ∧ dstIP.length = 4 then
    some { operation := op
           senderHardwareAddr := srcHW
           senderIP := srcIP
           targetHardwareAddr := dstHW
           targetIP := dstIP }
  else none

/-- Translation of the packet-building part of `SendGARP(intf, addr)`: the
packet handed to `arp.NewPacket` with request operation, the interface's
MAC as sender hardware address, `addr` as both protocol addresses and the
broadcast MAC as target hardware address, paired with the destination MAC
handed to `WriteTo`. -/
def sendGARP (intfMAC : List Nat) (addr : List Nat) : Option (ARPPacket × List Nat) :=
  (newPacket OperationRequest intfMAC addr macAddrBroadcast addr).map
    (fun p => (p, macAddrBroadcast))

/-! The GARP watch loops.

The current watch loop (GARP source file): check the cancellation token,
set a one-second receive timeout, receive; `EAGAIN`/`EINTR` restart the
loop, any other receive error is returned; a parse failure of any kind is
returned; on a GARP match the callback runs and its error is returned.
The loop is driven by the stream of per-iteration environment
observations and also records the socket-facing actions it performs. -/

inductive RecvOutcome where
  | rerr (e : Nat)
  | rok (buf : List Nat)
deriving DecidableEq

structure WatchStep where
  cancelled : Bool
  recv : RecvOutcome
deriving DecidableEq

inductive WatchResult where
  | ctxCancelled
  | recvError (e : Nat)
  | parseError (pe : ParseErr)
  | callbackError (ce : Nat)
  | blocked
deriving DecidableEq

inductive SockAction where
  | checkCancel
  | setRcvTimeout (sec usec : Nat)
  | recvfrom
deriving DecidableEq

/-- One run of the current `WatchGARP` loop: result plus the performed
socket actions.  An exhausted step stream means the loop is still
running (`blocked`). -/
def watchGARPRun (vip : List Nat) (cb : ARPPacket → Except Nat Unit) :
    List WatchStep → WatchResult × List SockAction
  | [] => (.blocked, [])
  | s :: rest =>
    if s.cancelled then (.ctxCancelled, [.checkCancel]) else
    let acts : List SockAction := [.checkCancel, .setRcvTimeout 1 0, .recvfrom]
    match s.recv with
    | .rerr e =>
      if e = EAGAIN ∨ e = EINTR then
        let r := watchGARPRun vip cb rest
        (r.1, acts ++ r.2)
      else (.recvError e, acts)
    | .rok buf =>
      match ParseARPPacket buf with
      | .error pe => (.parseError pe, acts)
      | .ok (pkt, _) =>
        if IsGARPPacket pkt vip then
          match cb pkt with
          | .error ce => (.callbackError ce, acts)
          | .ok _ =>
            let r := watchGARPRun vip cb rest
            (r.1, acts ++ r.2)
        else
          let r := watchGARPRun vip cb rest
          (r.1, acts ++ r.2)

def watchGARP (vip : List Nat) (cb : ARPPacket → Except Nat Unit)
    (steps : List WatchStep) : WatchResult :=
  (watchGARPRun vip cb steps).1

def watchGARPActions (vip : List Nat) (cb : ARPPacket → Except Nat Unit)
    (steps : List WatchStep) : List SockAction :=
  (watchGARPRun vip cb steps).2

/-- The historical variant of `WatchGARP` (the duplicated source file):
no receive timeout (a blocking receive with no packet never returns, hence
`blocked` on stream exhaustion), receive errors returned unconditionally,
the `errInvalidARPPacket` outcome skipped via `continue` (which also skips
the cancellation check), other parse errors returned, and the cancellation
token only examined at the bottom of an iteration that parsed a frame. -/
def watchGARPNoTimeout (cancelled : Bool) (vip : List Nat)
    (cb : ARPPacket → Except Nat Unit) : List RecvOutcome → WatchResult
  | [] => .blocked
  | .rerr e :: _ => .recvError e
  | .rok buf :: rest =>
    match ParseARPPacket buf with
    | .error .invalidARPPacket => watchGARPNoTimeout cancelled vip cb rest
    | .error pe => .parseError pe
    | .ok (pkt, _) =>
      match (if IsGARPPacket pkt vip then cb pkt else .ok ()) with
      | .error ce => .callbackError ce
      | .ok _ =>
        if cancelled then .ctxCancelled
        else watchGARPNoTimeout cancelled vip cb rest

/-- Shape of the socket-action trace of the current watch loop: a sequence
of iterations, each opening with a cancellation check and, when not
cancelled, a one-second receive timeout immediately followed by the
receive. -/
def watchShape : List SockAction → Bool
  | [] => true
  | .checkCancel :: rest =>
    match rest with
    | [] => true
    | .setRcvTimeout 1 0 :: .recvfrom :: rest2 => watchShape rest2
    | _ => false
  | _ => false

/-! Concrete data of end-to-end scenario 1: adding `192.0.2.100/32` with
label `"eth0:0"` on interface index 3. -/

/-- The bytes of the Go string `"eth0:0"`. -/
def labelEth00 : List Nat := [101, 116, 104, 48, 58, 48]

/-- The serialized add request of scenario 1. -/
def scenario1Req : List Nat :=
  buildAddOrDelAddrReq 3 RTM_NEWADDR ⟨[192, 0, 2, 100], 32⟩ labelEth00
    (Nat.lor NLM_F_CREATE (Nat.lor NLM_F_EXCL NLM_F_ACK))

/-! Concrete frames and a trivial callback used in watch-loop scenarios. -/

/-- A 14-byte Ethernet frame with ethertype 0x0800 (IPv4), not ARP. -/
def ip4Frame : List Nat := [0, 0, 0, 0, 0, 0, 0, 0, 0, 0, 0, 0, 8, 0]

/-- A gratuitous ARP frame for `192.0.2.100` from MAC `01:02:03:04:05:06`:
broadcast Ethernet destination, ethertype 0x0806, request operation,
sender and target protocol address both `192.0.2.100`, target hardware
address broadcast. -/
def garpFrame : List Nat :=
  [255, 255, 255, 255, 255, 255, 1, 2, 3, 4, 5, 6, 8, 6,
   0, 1, 8, 0, 6, 4, 0, 1,
   1, 2, 3, 4, 5, 6, 192, 0, 2, 100,
   255, 255, 255, 255, 255, 255, 192, 0, 2, 100]

/-- A callback that always succeeds. -/
def cbOk : ARPPacket → Except Nat Unit := fun _ => .ok ()

/-! Lemmas about the byte-buffer primitives. -/

theorem writeBytesAt_length (data : List Nat) (buf : List Nat) (off : Nat) :
    (writeBytesAt buf off data).length = buf.length := by
  induction data generalizing buf off with
  | nil => rfl
  | cons d ds ih => rw [writeBytesAt, ih]; simp

theorem getD_writeBytesAt_lt (data : List Nat) (buf : List Nat) (off i : Nat)
    (h : i < off) :
    (writeBytesAt buf off data).getD i 0 = buf.getD i 0 := by
  induction data generalizing buf off with
  | nil => rfl
  | cons d ds ih =>
    rw [writeBytesAt, ih _ _ (by omega)]
    simp [List.getD, List.getElem?_set_ne (by omega : off ≠ i)]

theorem getD_writeBytesAt_ge (data : List Nat) (buf : List Nat) (off i : Nat)
    (h : off + data.length ≤ i) :
    (writeBytesAt buf off data).getD i 0 = buf.getD i 0 := by
  induction data generalizing buf off with
  | nil => rfl
  | cons d ds ih =>
    rw [writeBytesAt, ih _ _ (by simp at h; omega)]
    simp at h
    simp [List.getD, List.getElem?_set_ne (by omega : off ≠ i)]

theorem getD_writeBytesAt_self (data : List Nat) (buf : List Nat) (off j : Nat)
    (hj : j < data.length) (hb : off + j < buf.length) :
    (writeBytesAt buf off data).getD (off + j) 0 = data.getD j 0 := by
  induction data generalizing buf off j with
  | nil => simp at hj
  | cons d ds ih =>
    rw [writeBytesAt]
    cases j with
    | zero =>
      rw [getD_writeBytesAt_lt _ _ _ _ (by omega)]
      simp [List.getD, List.getElem?_set_self (by omega : off < buf.length)]
    | succ j =>
      have hoff : off + (j + 1) = (off + 1) + j := by omega
      rw [hoff, ih _ _ _ (by simp at hj; omega) (by simp; omega)]
      rfl

theorem writeChunks_length (ds : List (List Nat)) (buf : List Nat) (off : Nat) :
    (writeChunks buf off ds).length = buf.length := by
  induction ds generalizing buf off with
  | nil => rfl
  | cons d ds ih => rw [writeChunks, ih, writeBytesAt_length]

theorem getD_writeChunks_lt (ds : List (List Nat)) (buf : List Nat) (off i : Nat)
    (h : i < off) :
    (writeChunks buf off ds).getD i 0 = buf.getD i 0 := by
  induction ds generalizing buf off with
  | nil => rfl
  | cons d ds ih =>
    rw [writeChunks, ih _ _ (by omega), getD_writeBytesAt_lt _ _ _ _ h]

/-! Lemmas about the three field serializers. -/

theorem serializeNlMsghdr_length (buf : List Nat) (off len typ flags seq pid : Nat) :
    (serializeNlMsghdr buf off len typ flags seq pid).1.length = buf.length := by
  simp [serializeNlMsghdr, writeBytesAt_length]

theorem serializeIfAddrmsg_length (buf : List Nat) (off f pl fl sc ix : Nat) :
    (serializeIfAddrmsg buf off f pl fl sc ix).1.length = buf.length := by
  simp [serializeIfAddrmsg, writeBytesAt_length]

theorem serializeRtAttr_length (buf : List Nat) (off len typ : Nat)
    (data : List (List Nat)) :
    (serializeRtAttr buf off len typ data).1.length = buf.length := by
  simp [serializeRtAttr, writeChunks_length, writeBytesAt_length]

theorem getD_serializeNlMsghdr_lt (buf : List Nat) (off len typ flags seq pid i : Nat)
    (h : i < off) :
    (serializeNlMsghdr buf off len typ flags seq pid).1.getD i 0 = buf.getD i 0 := by
  simp only [serializeNlMsghdr]
  rw [getD_writeBytesAt_lt _ _ _ _ (by omega), getD_writeBytesAt_lt _ _ _ _ (by omega),
    getD_writeBytesAt_lt _ _ _ _ (by omega), getD_writeBytesAt_lt _ _ _ _ (by omega),
    getD_writeBytesAt_lt _ _ _ _ (by omega)]

theorem getD_serializeNlMsghdr_len (buf : List Nat) (off len typ flags seq pid j : Nat)
    (hj : j < 4) (hb : off + 3 < buf.length) :
    (serializeNlMsghdr buf off len typ flags seq pid).1.getD (off + j) 0 =
      (putU32LE len).getD j 0 := by
  simp only [serializeNlMsghdr]
  rw [getD_writeBytesAt_lt _ _ _ _ (by omega), getD_writeBytesAt_lt _ _ _ _ (by omega),
    getD_writeBytesAt_lt _ _ _ _ (by omega), getD_writeBytesAt_lt _ _ _ _ (by omega),
    getD_writeBytesAt_self _ _ _ _ (by simp [putU32LE]; omega) (by omega)]

theorem getD_serializeIfAddrmsg_lt (buf : List Nat) (off f pl fl sc ix i : Nat)
    (h : i < off) :
    (serializeIfAddrmsg buf off f pl fl sc ix).1.getD i 0 = buf.getD i 0 := by
  simp only [serializeIfAddrmsg]
  rw [getD_writeBytesAt_lt _ _ _ _ (by omega), getD_writeBytesAt_lt _ _ _ _ (by omega),
    getD_writeBytesAt_lt _ _ _ _ (by omega), getD_writeBytesAt_lt _ _ _ _ (by omega),
    getD_writeBytesAt_lt _ _ _ _ (by omega)]

theorem getD_serializeIfAddrmsg_ge (buf : List Nat) (off f pl fl sc ix i : Nat)
    (h : off + 8 ≤ i) :
    (serializeIfAddrmsg buf off f pl fl sc ix).1.getD i 0 = buf.getD i 0 := by
  simp only [serializeIfAddrmsg]
  rw [getD_writeBytesAt_ge _ _ _ _ (by simp [putU32LE]; omega),
    getD_writeBytesAt_ge _ _ _ _ (by simp [putU8]; omega),
    getD_writeBytesAt_ge _ _ _ _ (by simp [putU8]; omega),
    getD_writeBytesAt_ge _ _ _ _ (by simp [putU8]; omega),
    getD_writeBytesAt_ge _ _ _ _ (by simp [putU8]; omega)]

theorem getD_serializeRtAttr_lt (buf : List Nat) (off len typ i : Nat)
    (data : List (List Nat)) (h : i < off) :
    (serializeRtAttr buf off len typ data).1.getD i 0 = buf.getD i 0 := by
  simp only [serializeRtAttr]
  rw [getD_writeChunks_lt _ _ _ _ (by omega), getD_writeBytesAt_lt _ _ _ _ (by omega),
    getD_writeBytesAt_lt _ _ _ _ (by omega)]

theorem getD_serializeRtAttr_len (buf : List Nat) (off len typ j : Nat)
    (data : List (List Nat)) (hj : j < 2) (hb : off + 1 < buf.length) :
    (serializeRtAttr buf off len typ data).1.getD (off + j) 0 =
      (putU16LE len).getD j 0 := by
  simp only [serializeRtAttr]
  rw [getD_writeChunks_lt _ _ _ _ (by omega), getD_writeBytesAt_lt _ _ _ _ (by omega),
    getD_writeBytesAt_self _ _ _ _ (by simp [putU16LE]; omega) (by omega)]

/-! The characterization of `align` for power-of-two boundaries. -/

theorem land_mask_two_pow (x k : Nat) (hx : x < 2 ^ 64) (hk : k ≤ 64) :
    Nat.land x (2 ^ 64 - 2 ^ k) = 2 ^ k * (x / 2 ^ k) := by
  have hmask : 2 ^ 64 - 2 ^ k = 2 ^ k * (2 ^ (64 - k) - 1) := by
    have h : 2 ^ k * 2 ^ (64 - k) = 2 ^ 64 := by
      rw [← pow_add]
      congr 1
      omega
    have h1 : 1 ≤ 2 ^ (64 - k) := Nat.one_le_two_pow
    rw [Nat.mul_sub, h, Nat.mul_one]
  apply Nat.eq_of_testBit_eq
  intro i
  change (x &&& (2 ^ 64 - 2 ^ k)).testBit i = (2 ^ k * (x / 2 ^ k)).testBit i
  rw [Nat.testBit_land, hmask, Nat.testBit_mul_pow_two, Nat.testBit_mul_pow_two,
    Nat.testBit_two_pow_sub_one, ← Nat.shiftRight_eq_div_pow, Nat.testBit_shiftRight]
  by_cases hik : k ≤ i
  · by_cases hi64 : i < 64
    · have : k + (i - k) = i := by omega
      simp [hik, this, hi64]
      omega
    · have hxf : x.testBit i = false := Nat.testBit_eq_false_of_lt
        (lt_of_lt_of_le hx (Nat.pow_le_pow_right (by omega) (by omega)))
      have hxf2 : x.testBit (k + (i - k)) = false := by
        have : k + (i - k) = i := by omega
        rw [this, hxf]
      simp [hik, hxf, hxf2]
  · simp [hik]

theorem align_two_pow (s k : Nat) (hs : s + 2 ^ k ≤ 2 ^ 64) (hk : k ≤ 64) :
    align s (2 ^ k) = 2 ^ k * ((s + 2 ^ k - 1) / 2 ^ k) := by
  have h1 : 1 ≤ 2 ^ k := Nat.one_le_two_pow
  have hmask : 2 ^ 64 - 1 - (2 ^ k - 1) = 2 ^ 64 - 2 ^ k := by omega
  rw [align, hmask]
  exact land_mask_two_pow _ _ (by omega) hk

/-- C10 (amended): for every non-negative size and every power-of-two
boundary — in the code the only boundary in use is `NLA_ALIGNTO = 4 = 2^2`
— and within the range of the 64-bit Go `int` arithmetic, `align size
boundary` returns the smallest multiple of the boundary that is greater
than or equal to `size`: the result is ≥ size, a multiple of the boundary,
minimal among such multiples, idempotent, and `align 0 boundary = 0`.
(For a boundary that is not a power of two the `&^` trick does not compute
a rounding, see the counterexample.) -/
theorem C10_align_spec (s k : Nat) (hs : s + 2 ^ k ≤ 2 ^ 64) (hk : k ≤ 64) :
    s ≤ align s (2 ^ k) ∧ 2 ^ k ∣ align s (2 ^ k) ∧
    (∀ m, 2 ^ k ∣ m → s ≤ m → align s (2 ^ k) ≤ m) ∧
    align (align s (2 ^ k)) (2 ^ k) = align s (2 ^ k) ∧
    align 0 (2 ^ k) = 0 := by
  have h1 : 1 ≤ 2 ^ k := Nat.one_le_two_pow
  have hch := align_two_pow s k hs hk
  have hdm := Nat.div_add_mod (s + 2 ^ k - 1) (2 ^ k)
  have hmod : (s + 2 ^ k - 1) % 2 ^ k < 2 ^ k := Nat.mod_lt _ (by omega)
  have h64 : 2 ^ k * 2 ^ (64 - k) = 2 ^ 64 := by
    rw [← pow_add]
    congr 1
    omega
  refine ⟨?_, ?_, ?_, ?_, ?_⟩
  · rw [hch]
    omega
  · rw [hch]
    exact ⟨_, rfl⟩
  · rintro m ⟨j, hj⟩ hsm
    rw [hch, hj]
    apply Nat.mul_le_mul_left
    have hle : s + 2 ^ k - 1 ≤ 2 ^ k * j + (2 ^ k - 1) := by omega
    calc (s + 2 ^ k - 1) / 2 ^ k ≤ (2 ^ k * j + (2 ^ k - 1)) / 2 ^ k :=
          Nat.div_le_div_right hle
      _ = j + (2 ^ k - 1) / 2 ^ k := Nat.mul_add_div (by omega) _ _
      _ = j := by rw [Nat.div_eq_of_lt (by omega)]; omega
  · rw [hch]
    have hq : (s + 2 ^ k - 1) / 2 ^ k < 2 ^ (64 - k) := by
      by_contra hc
      push_neg at hc
      have hmul := Nat.mul_le_mul_left (2 ^ k) hc
      rw [h64] at hmul
      omega
    have hs2 : 2 ^ k * ((s + 2 ^ k - 1) / 2 ^ k) + 2 ^ k ≤ 2 ^ 64 := by
      have := Nat.mul_le_mul_left (2 ^ k) hq
      rw [h64] at this
      calc 2 ^ k * ((s + 2 ^ k - 1) / 2 ^ k) + 2 ^ k
          = 2 ^ k * ((s + 2 ^ k - 1) / 2 ^ k + 1) := by ring
        _ ≤ 2 ^ 64 := by
            apply le_trans _ this
            apply Nat.mul_le_mul_left
            omega
    rw [align_two_pow _ k hs2 hk]
    have hdiv : (2 ^ k - 1) / 2 ^ k = 0 := Nat.div_eq_of_lt (by omega)
    rw [Nat.add_sub_assoc h1, Nat.mul_add_div (by omega), hdiv]
    simp
  · have hdiv : (2 ^ k - 1) / 2 ^ k = 0 := Nat.div_eq_of_lt (by omega)
    rw [align_two_pow 0 k (by omega) hk, Nat.zero_add, hdiv, Nat.mul_zero]

/-- Witness for C10: at size 5 with boundary `2^2 = 4` the aligned value
is at least 5 and at most the multiple 8. -/
theorem C10_align_spec_witness : 5 ≤ align 5 (2 ^ 2) ∧ align 5 (2 ^ 2) ≤ 8 :=
  ⟨(C10_align_spec 5 2 (by decide) (by decide)).1,
   (C10_align_spec 5 2 (by decide) (by decide)).2.2.1 8 (by decide) (by decide)⟩

/-- C10 counterexample: for the non-power-of-two boundary 3 the claim
fails at size 1: `align 1 3 = 1`, which is not a multiple of 3 (the
smallest multiple of 3 that is ≥ 1 is 3). -/
theorem C10_counterexample : align 1 3 = 1 ∧ ¬ 3 ∣ align 1 3 := by
  refine ⟨by decide, by decide⟩

/-- C5: `IsGratuitous(packet, watchedAddress)` returns true if and only if
the operation is Request, the sender protocol address equals the watched
address, the target protocol address equals the watched address and the
target hardware address is the all-ones broadcast address; deviating in
any single one of these fields makes the result false. -/
theorem C5_isGARP_iff (p : ARPPacket) (vip : List Nat) :
    (IsGARPPacket p vip = true ↔
      p.operation = OperationRequest ∧ p.senderIP = vip ∧
        p.targetIP = vip ∧ p.targetHardwareAddr = macAddrBroadcast) ∧
    (p.operation ≠ OperationRequest → IsGARPPacket p vip = false) ∧
    (p.senderIP ≠ vip → IsGARPPacket p vip = false) ∧
    (p.targetIP ≠ vip → IsGARPPacket p vip = false) ∧
    (p.targetHardwareAddr ≠ macAddrBroadcast → IsGARPPacket p vip = false) := by
  have hiff : IsGARPPacket p vip = true ↔
      p.operation = OperationRequest ∧ p.senderIP = vip ∧
        p.targetIP = vip ∧ p.targetHardwareAddr = macAddrBroadcast := by
    simp only [IsGARPPacket, Bool.and_eq_true, beq_iff_eq]
    tauto
  refine ⟨hiff, ?_, ?_, ?_, ?_⟩ <;>
    · intro h
      rw [Bool.eq_false_iff]
      intro htrue
      have hc := hiff.1 htrue
      tauto

/-- Witness for C5: a packet deviating only in the sender protocol address
is not gratuitous for the watched address `192.0.2.100`. -/
theorem C5_isGARP_iff_witness :
    IsGARPPacket
      { operation := 1, senderHardwareAddr := [1, 2, 3, 4, 5, 6],
        senderIP := [192, 0, 2, 101], targetHardwareAddr := macAddrBroadcast,
        targetIP := [192, 0, 2, 100] } [192, 0, 2, 100] = false :=
  (C5_isGARP_iff _ _).2.2.1 (by decide)

/-- C9: the ARP packet built by `SendGARP` for an interface MAC and an
address satisfies the gratuitous predicate for that same address: request
operation, sender hardware address the interface's MAC, both protocol
addresses equal to the address, target hardware address broadcast, and the
frame destination handed to the link-layer write is the broadcast MAC. -/
theorem C9_sendGARP_gratuitous (mac addr : List Nat) (p : ARPPacket)
    (dst : List Nat) (h : sendGARP mac addr = some (p, dst)) :
    IsGARPPacket p addr = true ∧ p.operation = OperationRequest ∧
    p.senderHardwareAddr = mac ∧ p.senderIP = addr ∧ p.targetIP = addr ∧
    p.targetHardwareAddr = macAddrBroadcast ∧ dst = macAddrBroadcast := by
  unfold sendGARP at h
  rw [Option.map_eq_some'] at h
  obtain ⟨q, hq, hpair⟩ := h
  unfold newPacket at hq
  by_cases hc : mac.length = macAddrBroadcast.length ∧ 0 < mac.length ∧
      addr.length = 4 ∧ addr.length = 4
  · rw [if_pos hc] at hq
    simp only [Option.some.injEq] at hq
    simp only [Prod.mk.injEq] at hpair
    obtain ⟨hp, hdst⟩ := hpair
    subst hp
    subst hq
    subst hdst
    exact ⟨by simp [IsGARPPacket], rfl, rfl, rfl, rfl, rfl, rfl⟩
  · rw [if_neg hc] at hq
    cases hq

/-- Witness for C9: the packet built for MAC `01:02:03:04:05:06` and
address `192.0.2.100` is gratuitous for `192.0.2.100`. -/
theorem C9_sendGARP_gratuitous_witness :
    IsGARPPacket
      { operation := OperationRequest, senderHardwareAddr := [1, 2, 3, 4, 5, 6],
        senderIP := [192, 0, 2, 100], targetHardwareAddr := macAddrBroadcast,
        targetIP := [192, 0, 2, 100] } [192, 0, 2, 100] = true :=
  (C9_sendGARP_gratuitous [1, 2, 3, 4, 5, 6] [192, 0, 2, 100]
    { operation := OperationRequest, senderHardwareAddr := [1, 2, 3, 4, 5, 6],
      senderIP := [192, 0, 2, 100], targetHardwareAddr := macAddrBroadcast,
      targetIP := [192, 0, 2, 100] } macAddrBroadcast (by decide)).1

/-- C1 (evaluation at the failing input): in the serialized scenario-1
request the interface-address sub-header does not begin at offset 16 —
`serializeNlMsghdr` advances by `SizeofIfAddrmsg` (8) instead of
`SizeofNlMsghdr` (16), so the IPv4 family byte (2) sits at offset 8,
inside the netlink header, offset 16 holds the first attribute's length
byte (8), and the last eight buffer bytes are left unwritten (zero) while
the declared length still counts them. -/
theorem C1_subheader_offset_bug :
    scenario1Req.getD 8 0 = AF_INET ∧
    scenario1Req.getD 9 0 = 32 ∧
    scenario1Req.getD 16 0 = 8 ∧
    scenario1Req.getD 16 0 ≠ AF_INET ∧
    scenario1Req.length = 52 ∧
    scenario1Req.drop 44 = List.replicate 8 0 := by
  refine ⟨by decide, by decide, by decide, by decide, by decide, by decide⟩

/-! Helper lemmas about the serialized request buffer. -/

@[simp] theorem serializeNlMsghdr_snd (buf : List Nat) (off a b c d e : Nat) :
    (serializeNlMsghdr buf off a b c d e).2 = off + SizeofIfAddrmsg := rfl

@[simp] theorem serializeIfAddrmsg_snd (buf : List Nat) (off a b c d e : Nat) :
    (serializeIfAddrmsg buf off a b c d e).2 = off + SizeofIfAddrmsg := rfl

@[simp] theorem serializeRtAttr_snd (buf : List Nat) (off len typ : Nat)
    (data : List (List Nat)) :
    (serializeRtAttr buf off len typ data).2 = off + len % 65536 := rfl

/-- The length of the serialized request buffer equals the `reqLen` the Go
code computes. -/
theorem buildAddOrDelAddrReq_length (ifIndex proto flags : Nat) (p : Cidr)
    (label : List Nat) :
    (buildAddOrDelAddrReq ifIndex proto p label flags).length =
      SizeofNlMsghdr + SizeofIfAddrmsg + 2 * (SizeofRtAttr + p.addrBytes.length) +
        (if label ≠ [] then SizeofRtAttr + alignNlAttr (label.length + 1) else 0) := by
  by_cases hl : label = [] <;>
    simp [buildAddOrDelAddrReq, hl, serializeRtAttr_length, serializeIfAddrmsg_length,
      serializeNlMsghdr_length]

/-- The first four bytes of the serialized request buffer are the
little-endian `uint32` store of `reqLen`: every later write lands at
offset 4 or beyond. -/
theorem buildAddOrDelAddrReq_getD_lo (ifIndex proto flags : Nat) (p : Cidr)
    (label : List Nat) (i : Nat) (hi : i < 4) :
    (buildAddOrDelAddrReq ifIndex proto p label flags).getD i 0 =
      (putU32LE (SizeofNlMsghdr + SizeofIfAddrmsg +
        2 * (SizeofRtAttr + p.addrBytes.length) +
        (if label ≠ [] then SizeofRtAttr + alignNlAttr (label.length + 1) else 0))).getD
        i 0 := by
  have hrep : (SizeofNlMsghdr + SizeofIfAddrmsg +
      2 * (SizeofRtAttr + p.addrBytes.length) +
      (if label ≠ [] then SizeofRtAttr + alignNlAttr (label.length + 1) else 0)) =
      24 + 2 * (4 + p.addrBytes.length) +
      (if label ≠ [] then 4 + alignNlAttr (label.length + 1) else 0) := by
    simp only [SizeofNlMsghdr, SizeofIfAddrmsg, SizeofRtAttr]
  by_cases hl : label = []
  · simp only [buildAddOrDelAddrReq, hl, ne_eq, not_true_eq_false, if_false,
      ite_false, serializeNlMsghdr_snd, serializeIfAddrmsg_snd, serializeRtAttr_snd]
    rw [getD_serializeRtAttr_lt _ _ _ _ _ _ (by simp [SizeofIfAddrmsg]; omega),
      getD_serializeRtAttr_lt _ _ _ _ _ _ (by simp [SizeofIfAddrmsg]; omega),
      getD_serializeIfAddrmsg_lt _ _ _ _ _ _ _ _ (by simp [SizeofIfAddrmsg]; omega)]
    have hv := getD_serializeNlMsghdr_len (List.replicate
        (SizeofNlMsghdr + SizeofIfAddrmsg + 2 * (SizeofRtAttr + p.addrBytes.length) +
          0) 0) 0
      (SizeofNlMsghdr + SizeofIfAddrmsg + 2 * (SizeofRtAttr + p.addrBytes.length) + 0)
      proto (Nat.lor NLM_F_REQUEST flags) 1 0 i hi
      (by simp only [List.length_replicate, SizeofNlMsghdr, SizeofIfAddrmsg,
            SizeofRtAttr]
          omega)
    simpa [SizeofNlMsghdr, SizeofIfAddrmsg, SizeofRtAttr] using hv
  · simp only [buildAddOrDelAddrReq, hl, ne_eq, not_false_eq_true, if_true,
      ite_true, serializeNlMsghdr_snd, serializeIfAddrmsg_snd, serializeRtAttr_snd]
    rw [getD_serializeRtAttr_lt _ _ _ _ _ _ (by simp [SizeofIfAddrmsg]; omega),
      getD_serializeRtAttr_lt _ _ _ _ _ _ (by simp [SizeofIfAddrmsg]; omega),
      getD_serializeRtAttr_lt _ _ _ _ _ _ (by simp [SizeofIfAddrmsg]; omega),
      getD_serializeIfAddrmsg_lt _ _ _ _ _ _ _ _ (by simp [SizeofIfAddrmsg]; omega)]
    have hv := getD_serializeNlMsghdr_len (List.replicate
        (SizeofNlMsghdr + SizeofIfAddrmsg + 2 * (SizeofRtAttr + p.addrBytes.length) +
          (SizeofRtAttr + alignNlAttr (label.length + 1))) 0) 0
      (SizeofNlMsghdr + SizeofIfAddrmsg + 2 * (SizeofRtAttr + p.addrBytes.length) +
        (SizeofRtAttr + alignNlAttr (label.length + 1)))
      proto (Nat.lor NLM_F_REQUEST flags) 1 0 i hi
      (by simp only [List.length_replicate, SizeofNlMsghdr, SizeofIfAddrmsg,
            SizeofRtAttr]
          omega)
    simpa [SizeofNlMsghdr, SizeofIfAddrmsg, SizeofRtAttr] using hv

/-- The bytes of a `uint32` store, read back one by one. -/
theorem putU32LE_getD (v : Nat) :
    (putU32LE v).getD 0 0 = v % 256 ∧ (putU32LE v).getD 1 0 = v / 256 % 256 ∧
    (putU32LE v).getD 2 0 = v / 65536 % 256 ∧
    (putU32LE v).getD 3 0 = v / 16777216 % 256 :=
  ⟨rfl, rfl, rfl, rfl⟩

/-- The bytes of a `uint16` store, read back one by one. -/
theorem putU16LE_getD (v : Nat) :
    (putU16LE v).getD 0 0 = v % 256 ∧ (putU16LE v).getD 1 0 = v / 256 % 256 :=
  ⟨rfl, rfl⟩

/-- Reading the length field written by `serializeRtAttr` gives the stored
`uint16` value. -/
theorem readU16_serializeRtAttr_len (buf : List Nat) (off len typ : Nat)
    (data : List (List Nat)) (hb : off + 1 < buf.length) :
    readU16LE (serializeRtAttr buf off len typ data).1 off = len % 65536 := by
  have h0 := getD_serializeRtAttr_len buf off len typ 0 data (by omega) hb
  have h1 := getD_serializeRtAttr_len buf off len typ 1 data (by omega) hb
  rw [(putU16LE_getD len).1] at h0
  rw [(putU16LE_getD len).2] at h1
  simp only [Nat.add_zero] at h0
  rw [readU16LE, h0, h1]
  omega

/-- A two-byte read strictly below a later attribute write is unchanged. -/
theorem readU16_serializeRtAttr_lt (buf : List Nat) (off' len typ : Nat)
    (data : List (List Nat)) (off : Nat) (h : off + 1 < off') :
    readU16LE (serializeRtAttr buf off' len typ data).1 off = readU16LE buf off := by
  rw [readU16LE, readU16LE, getD_serializeRtAttr_lt _ _ _ _ _ _ (by omega),
    getD_serializeRtAttr_lt _ _ _ _ _ _ (by omega)]

/-- C6: the total length value written into the netlink header's length
field equals the actual byte length of the serialized buffer, for every
interface index, prefix (of any family) and label including the empty
one.  The hypothesis is the `uint32` range of the buffer size, which every
real request satisfies. -/
theorem C6_declared_length (ifIndex proto flags : Nat) (p : Cidr) (label : List Nat)
    (h : (buildAddOrDelAddrReq ifIndex proto p label flags).length < 4294967296) :
    readU32LE (buildAddOrDelAddrReq ifIndex proto p label flags) 0 =
      (buildAddOrDelAddrReq ifIndex proto p label flags).length := by
  have hlen := buildAddOrDelAddrReq_length ifIndex proto flags p label
  have h0 := buildAddOrDelAddrReq_getD_lo ifIndex proto flags p label 0 (by omega)
  have h1 := buildAddOrDelAddrReq_getD_lo ifIndex proto flags p label 1 (by omega)
  have h2 := buildAddOrDelAddrReq_getD_lo ifIndex proto flags p label 2 (by omega)
  have h3 := buildAddOrDelAddrReq_getD_lo ifIndex proto flags p label 3 (by omega)
  rw [(putU32LE_getD _).1] at h0
  rw [(putU32LE_getD _).2.1] at h1
  rw [(putU32LE_getD _).2.2.1] at h2
  rw [(putU32LE_getD _).2.2.2] at h3
  rw [hlen] at h
  rw [readU32LE]
  simp only [Nat.zero_add]
  rw [h0, h1, h2, h3, hlen]
  omega

/-- Witness for C6: in scenario 1 the declared length and the buffer
length are both 52. -/
theorem C6_declared_length_witness :
    readU32LE scenario1Req 0 = scenario1Req.length :=
  C6_declared_length 3 RTM_NEWADDR (Nat.lor NLM_F_CREATE (Nat.lor NLM_F_EXCL NLM_F_ACK))
    ⟨[192, 0, 2, 100], 32⟩ labelEth00 (by decide)

/-- C2 (amended): in a serialized add/delete request the local-address and
address attributes carry a length field equal to the 4-byte attribute
header plus the unpadded payload size (the 4- or 16-byte address, itself
already 4-byte aligned), but the label attribute's length field equals the
header plus the PADDED payload size `align(len(label)+1, 4)`, not the
unpadded `len(label)+1`.  The three length fields are read back here at
the attribute positions of the serialized buffer. -/
theorem C2_attr_len_fields (ifIndex proto flags : Nat) (p : Cidr) (label : List Nat)
    (ha : p.addrBytes.length = 4 ∨ p.addrBytes.length = 16)
    (hlab : SizeofRtAttr + alignNlAttr (label.length + 1) < 65536) :
    readU16LE (buildAddOrDelAddrReq ifIndex proto p label flags) 16 =
      SizeofRtAttr + p.addrBytes.length ∧
    readU16LE (buildAddOrDelAddrReq ifIndex proto p label flags)
        (16 + (SizeofRtAttr + p.addrBytes.length)) =
      SizeofRtAttr + p.addrBytes.length ∧
    (label ≠ [] →
      readU16LE (buildAddOrDelAddrReq ifIndex proto p label flags)
          (16 + (SizeofRtAttr + p.addrBytes.length) +
            (SizeofRtAttr + p.addrBytes.length)) =
        SizeofRtAttr + alignNlAttr (label.length + 1)) := by
  have ha' : 4 + p.addrBytes.length < 65536 := by
    rcases ha with h | h <;> rw [h] <;> decide
  simp only [SizeofRtAttr] at hlab
  by_cases hl : label = []
  · subst hl
    simp [buildAddOrDelAddrReq, SizeofNlMsghdr, SizeofIfAddrmsg, SizeofRtAttr,
      Nat.mod_eq_of_lt ha']
    constructor
    · rw [readU16_serializeRtAttr_lt, readU16_serializeRtAttr_len]
      all_goals try simp only [serializeRtAttr_length, serializeIfAddrmsg_length,
        serializeNlMsghdr_length, List.length_replicate]
      all_goals omega
    · rw [readU16_serializeRtAttr_len]
      all_goals try simp only [serializeRtAttr_length, serializeIfAddrmsg_length,
        serializeNlMsghdr_length, List.length_replicate]
      all_goals omega
  · simp [buildAddOrDelAddrReq, hl, SizeofNlMsghdr, SizeofIfAddrmsg, SizeofRtAttr,
      Nat.mod_eq_of_lt ha']
    refine ⟨?_, ?_, ?_⟩
    · rw [readU16_serializeRtAttr_lt, readU16_serializeRtAttr_lt,
        readU16_serializeRtAttr_len]
      all_goals try simp only [serializeRtAttr_length, serializeIfAddrmsg_length,
        serializeNlMsghdr_length, List.length_replicate]
      all_goals omega
    · rw [readU16_serializeRtAttr_lt, readU16_serializeRtAttr_len]
      all_goals try simp only [serializeRtAttr_length, serializeIfAddrmsg_length,
        serializeNlMsghdr_length, List.length_replicate]
      all_goals omega
    · rw [readU16_serializeRtAttr_len]
      all_goals try simp only [serializeRtAttr_length, serializeIfAddrmsg_length,
        serializeNlMsghdr_length, List.length_replicate]
      all_goals omega

/-- Witness for C2: in scenario 1 the two address attributes carry length
field 8 and the label attribute carries length field `4 + align(7, 4)`. -/
theorem C2_attr_len_fields_witness :
    readU16LE scenario1Req 16 = SizeofRtAttr + 4 ∧
    readU16LE scenario1Req 32 = SizeofRtAttr + alignNlAttr (labelEth00.length + 1) :=
  ⟨(C2_attr_len_fields 3 RTM_NEWADDR
      (Nat.lor NLM_F_CREATE (Nat.lor NLM_F_EXCL NLM_F_ACK)) ⟨[192, 0, 2, 100], 32⟩
      labelEth00 (Or.inl rfl) (by decide)).1,
   (C2_attr_len_fields 3 RTM_NEWADDR
      (Nat.lor NLM_F_CREATE (Nat.lor NLM_F_EXCL NLM_F_ACK)) ⟨[192, 0, 2, 100], 32⟩
      labelEth00 (Or.inl rfl) (by decide)).2.2 (by decide)⟩

/-- C2 counterexample: in scenario 1 the label attribute's length field is
12 = 4 + align(6+1, 4), not the 4-byte header plus the unpadded payload
size 6+1 = 11 that the claim asserts. -/
theorem C2_counterexample :
    readU16LE scenario1Req 32 = 12 ∧
    readU16LE scenario1Req 32 ≠ SizeofRtAttr + (labelEth00.length + 1) :=
  ⟨by decide, by decide⟩

/-- A prefix of messages of other types is skipped by the datagram scan. -/
theorem processMsgs_ignored (pre l : List NlMsg)
    (h : ∀ x ∈ pre, x.typ ≠ NLMSG_DONE ∧ x.typ ≠ NLMSG_ERROR) :
    processMsgs (pre ++ l) = processMsgs l := by
  induction pre with
  | nil => rfl
  | cons m pre ih =>
    have hm := h m (List.mem_cons_self _ _)
    simp only [List.cons_append, processMsgs, if_neg hm.1, if_neg hm.2]
    exact ih fun x hx => h x (List.mem_cons_of_mem _ hx)

/-- C4: in the acknowledgement loop, a datagram whose first relevant
message is "done" terminates with success; an error message with code 0
also terminates with success; an error message with nonzero code `c`
terminates immediately with the errno `-c`; messages of other types are
skipped and a datagram containing only such messages keeps the loop
receiving.  Concretely, a stream of one error message with code 0
followed by "done" is success, and a single error message with code -17
surfaces errno 17 (EEXIST, address already exists). -/
theorem C4_ack_loop (rest : List Recv) (pre tail : List NlMsg) (m : NlMsg)
    (hpre : ∀ x ∈ pre, x.typ ≠ NLMSG_DONE ∧ x.typ ≠ NLMSG_ERROR) :
    (m.typ = NLMSG_DONE →
      addOrDelAddrLoop (.msgs (pre ++ m :: tail) :: rest) = .ok) ∧
    (m.typ = NLMSG_ERROR → decodeInt32LE m.data = 0 →
      addOrDelAddrLoop (.msgs (pre ++ m :: tail) :: rest) = .ok) ∧
    (∀ c : Int, m.typ = NLMSG_ERROR → decodeInt32LE m.data = c → c ≠ 0 →
      addOrDelAddrLoop (.msgs (pre ++ m :: tail) :: rest) = .nlErr (-c)) ∧
    (addOrDelAddrLoop (.msgs pre :: rest) = addOrDelAddrLoop rest) ∧
    (addOrDelAddrLoop
      [.msgs [⟨NLMSG_ERROR, [0, 0, 0, 0]⟩, ⟨NLMSG_DONE, []⟩]] = .ok) ∧
    (addOrDelAddrLoop [.msgs [⟨NLMSG_ERROR, [239, 255, 255, 255]⟩]] = .nlErr 17) := by
  have hig := processMsgs_ignored pre (m :: tail) hpre
  have hpre' : processMsgs pre = none := by
    have h0 := processMsgs_ignored pre [] hpre
    simpa [processMsgs] using h0
  refine ⟨?_, ?_, ?_, ?_, by decide, by decide⟩
  · intro hd
    simp [addOrDelAddrLoop, hig, processMsgs, hd]
  · intro he h0
    simp [addOrDelAddrLoop, hig, processMsgs, he, h0, NLMSG_ERROR, NLMSG_DONE]
  · intro c he hc hc0
    simp [addOrDelAddrLoop, hig, processMsgs, he, hc, hc0, NLMSG_ERROR, NLMSG_DONE]
  · simp [addOrDelAddrLoop, hpre']

/-- Witness for C4: a datagram with one message of an unrelated type
followed by "done" yields success. -/
theorem C4_ack_loop_witness :
    addOrDelAddrLoop [.msgs [⟨20, []⟩, ⟨NLMSG_DONE, []⟩]] = .ok :=
  (C4_ack_loop [] [⟨20, []⟩] [] ⟨NLMSG_DONE, []⟩ (by decide)).1 rfl

/-- C3 counterexample: in the current watch loop, receiving one frame with
ethertype 0x0800 (not ARP) terminates the loop at once with the dedicated
not-an-ARP-packet error, instead of silently skipping it and proceeding to
the next receive as the claim states. -/
theorem C3_counterexample :
    watchGARP [192, 0, 2, 100] cbOk
      [⟨false, .rok ip4Frame⟩, ⟨false, .rerr 11⟩] =
      .parseError .invalidARPPacket := by
  rfl

/-- C3 (amended): in the current watch loop any parse failure — including
the not-an-ARP ethertype, whose dedicated error value `errInvalidARPPacket`
is distinguishable from the malformed-frame errors — terminates the loop
with that error; the silent skip of non-ARP frames belongs to the
historical variant loop (which captures all ethertypes), where any other
parse failure still terminates the loop. -/
theorem C3_parse_errors (vip : List Nat) (cb : ARPPacket → Except Nat Unit)
    (s : WatchStep) (wrest : List WatchStep) (buf : List Nat) (pe : ParseErr)
    (cancelled : Bool) (rrest : List RecvOutcome) (f : EthFrame) :
    (s.cancelled = false → s.recv = .rok buf → ParseARPPacket buf = .error pe →
      watchGARP vip cb (s :: wrest) = .parseError pe) ∧
    (ParseARPPacket buf = .error .invalidARPPacket →
      watchGARPNoTimeout cancelled vip cb (.rok buf :: rrest) =
        watchGARPNoTimeout cancelled vip cb rrest) ∧
    (ParseARPPacket buf = .error pe → pe ≠ .invalidARPPacket →
      watchGARPNoTimeout cancelled vip cb (.rok buf :: rrest) = .parseError pe) ∧
    (unmarshalFrame buf = .ok f → f.etherType ≠ ETH_P_ARP →
      ParseARPPacket buf = .error .invalidARPPacket) ∧
    (ParseErr.invalidARPPacket ≠ ParseErr.frameTooShort ∧
      ParseErr.invalidARPPacket ≠ ParseErr.arpTooShort) := by
  refine ⟨?_, ?_, ?_, ?_, by decide⟩
  · intro hc hr hp
    simp [watchGARP, watchGARPRun, hc, hr, hp]
  · intro hp
    simp [watchGARPNoTimeout, hp]
  · intro hp hne
    cases pe with
    | invalidARPPacket => exact absurd rfl hne
    | frameTooShort => simp [watchGARPNoTimeout, hp]
    | arpTooShort => simp [watchGARPNoTimeout, hp]
  · intro hf hne
    simp [ParseARPPacket, hf, hne]

/-- Witness for C3: an empty capture is too short for the Ethernet header
and terminates the current loop with the length error. -/
theorem C3_parse_errors_witness :
    watchGARP [192, 0, 2, 100] cbOk [⟨false, .rok []⟩] =
      .parseError .frameTooShort :=
  (C3_parse_errors [192, 0, 2, 100] cbOk ⟨false, .rok []⟩ [] [] .frameTooShort
    false [] ⟨[], [], 0, []⟩).1 rfl rfl rfl

/-- C7 counterexample: in the current watch loop a receive failure with
EAGAIN (the bounded receive timeout expiring) is not propagated: the loop
continues and performs a second receive, whose distinct error 99 is the
one returned. -/
theorem C7_counterexample :
    watchGARP [192, 0, 2, 100] cbOk
      [⟨false, .rerr 11⟩, ⟨false, .rerr 99⟩] = .recvError 99 ∧
    (watchGARPActions [192, 0, 2, 100] cbOk
      [⟨false, .rerr 11⟩, ⟨false, .rerr 99⟩]).count .recvfrom = 2 := by
  refine ⟨by rfl, by rfl⟩

/-- C7 (amended): in the netlink acknowledgement loop every receive error
is fatal and propagated immediately with no retry; in the current GARP
watch loop, receive failures with EAGAIN (the timeout expiry) or EINTR
restart the loop, and every other receive error is fatal and propagated
immediately with no further receive. -/
theorem C7_recv_errors (e : Nat) (rest : List Recv) (vip : List Nat)
    (cb : ARPPacket → Except Nat Unit) (s : WatchStep) (wrest : List WatchStep)
    (hs : s.cancelled = false) :
    (addOrDelAddrLoop (.recvFailed e :: rest) = .recvErr e) ∧
    (s.recv = .rerr e → e ≠ EAGAIN → e ≠ EINTR →
      watchGARP vip cb (s :: wrest) = .recvError e) ∧
    (s.recv = .rerr EAGAIN →
      watchGARP vip cb (s :: wrest) = watchGARP vip cb wrest) ∧
    (s.recv = .rerr EINTR →
      watchGARP vip cb (s :: wrest) = watchGARP vip cb wrest) := by
  refine ⟨rfl, ?_, ?_, ?_⟩
  · intro hr he hi
    simp only [EAGAIN] at he
    simp only [EINTR] at hi
    simp [watchGARP, watchGARPRun, hs, hr, EAGAIN, EINTR, he, hi]
  · intro hr
    simp [watchGARP, watchGARPRun, hs, hr, EAGAIN]
  · intro hr
    simp [watchGARP, watchGARPRun, hs, hr, EAGAIN, EINTR]

/-- Witness for C7: a receive failing with the distinct errno 99 is
returned at once by the watch loop. -/
theorem C7_recv_errors_witness :
    watchGARP [192, 0, 2, 100] cbOk [⟨false, .rerr 99⟩] = .recvError 99 :=
  (C7_recv_errors 99 [] [192, 0, 2, 100] cbOk ⟨false, .rerr 99⟩ [] rfl).2.1
    rfl (by decide) (by decide)

/-- C8: the current watch loop polls the cancellation token at the top of
every iteration and performs each receive only after (re)arming the
one-second receive timeout, so a cancelled token is observed and returned
after at most one timed-out receive even if no packet ever arrives: with
any prefix of iterations whose receives merely time out (EAGAIN), the
first iteration that sees the cancelled token returns the cancellation
result without receiving again.  The trace of socket actions always has
the shape (checkCancel [setTimeout 1s; recvfrom])*.  The historical
variant loop without a timeout does not satisfy this: with a cancelled
token and no packet it stays blocked, and it observes the cancellation
only after a frame arrives and parses. -/
theorem C8_cancellation (vip : List Nat) (cb : ARPPacket → Except Nat Unit)
    (pre : List WatchStep) (s : WatchStep) (wrest : List WatchStep)
    (steps : List WatchStep) :
    ((∀ x ∈ pre, x.cancelled = false ∧ x.recv = .rerr EAGAIN) →
      s.cancelled = true →
      watchGARP vip cb (pre ++ s :: wrest) = .ctxCancelled) ∧
    (watchShape (watchGARPActions vip cb steps) = true) ∧
    (watchGARPNoTimeout true vip cb [] = .blocked) ∧
    (watchGARPNoTimeout true [192, 0, 2, 100] cbOk [.rok garpFrame] =
      .ctxCancelled) := by
  refine ⟨?_, ?_, rfl, by rfl⟩
  · induction pre with
    | nil =>
      intro _ hs
      simp [watchGARP, watchGARPRun, hs]
    | cons x pre ih =>
      intro hpre hs
      have hx := hpre x (List.mem_cons_self _ _)
      have hcont := ih (fun y hy => hpre y (List.mem_cons_of_mem _ hy)) hs
      simp only [watchGARP, watchGARPRun, List.cons_append, hx.1, hx.2, EAGAIN,
        Bool.false_eq_true, if_false]
      simp only [watchGARP] at hcont
      simpa using hcont
  · induction steps with
    | nil => rfl
    | cons s steps ih =>
      simp only [watchGARPActions] at ih
      simp only [watchGARPActions, watchGARPRun]
      by_cases hc : s.cancelled = true
      · simp [hc, watchShape]
      · simp only [Bool.not_eq_true] at hc
        cases hr : s.recv with
        | rerr e =>
          by_cases he : e = EAGAIN ∨ e = EINTR
          · simp [hc, hr, he, watchShape, ih]
          · simp [hc, hr, he, watchShape]
        | rok buf =>
          cases hp : ParseARPPacket buf with
          | error pe => simp [hc, hr, hp, watchShape]
          | ok pr =>
            by_cases hg : IsGARPPacket pr.1 vip = true
            · cases hcb : cb pr.1 with
              | error ce => simp [hc, hr, hp, hg, hcb, watchShape]
              | ok u => simp [hc, hr, hp, hg, hcb, watchShape, ih]
            · simp [hc, hr, hp, hg, watchShape, ih]

/-- Witness for C8: one timed-out receive followed by a cancelled check
returns the cancellation result. -/
theorem C8_cancellation_witness :
    watchGARP [192, 0, 2, 100] cbOk
      [⟨false, .rerr EAGAIN⟩, ⟨true, .rerr EAGAIN⟩] = .ctxCancelled :=
  (C8_cancellation [192, 0, 2, 100] cbOk [⟨false, .rerr EAGAIN⟩]
    ⟨true, .rerr EAGAIN⟩ [] []).1 (by decide) rfl

end Netvip
